import Mathlib

/-!
Verification development for the netmeta MCP bridge
(`src/netmeta_mcp/r_bridge.py`, `src/netmeta_mcp/server.py`).

The bridge drives an external statistical engine (R with the `netmeta`
package) through generated scripts.  The development embeds:

* the facade post-processing of a finished engine process
  (`NetmetaBridge._run_r_script`, lines 73-108 of `r_bridge.py`);
* the semantics of the generated per-operation scripts (the guarded
  state-load preamble and each operation body), over an abstract
  `Session` record that models the persisted `netmeta` result object.
  The statistical fitting itself is a black box: its outputs (treatment
  list, effect matrices, P-score vector, ...) are fields of `Session`;
* the CSV conversion tool (`csv_to_json` in `server.py`).

Machine reals are modelled by `ℚ`: every claim below is about which
values are placed where, never about floating-point arithmetic.
Python exceptions are modelled by `Except PyExc`; R control flow
(`quit`, `tryCatch`) by ordinary branching.
-/

namespace Netmeta

/-- A JSON document, as produced by the engine scripts (`jsonlite::toJSON`)
and consumed by the facade (`json.loads`).  Numbers are modelled by `ℚ`. -/
inductive Json where
  | null
  | bool (b : Bool)
  | num (q : ℚ)
  | str (s : String)
  | arr (xs : List Json)
  | obj (fields : List (String × Json))

/-- Look up the first field with the given key of a JSON object. -/
def Json.field (j : Json) (k : String) : Option Json :=
  match j with
  | .obj fs => (fs.find? (fun p => decide (p.1 = k))).map (·.2)
  | _ => none

/-- The keys of a JSON object, in order. -/
def Json.keys (j : Json) : List String :=
  match j with
  | .obj fs => fs.map (·.1)
  | _ => []

/-- The elements of a JSON array (empty for non-arrays). -/
def Json.elems (j : Json) : List Json :=
  match j with
  | .arr xs => xs
  | _ => []

/-- Characters stripped by Python `str.strip()`. -/
def isPySpace (c : Char) : Bool :=
  c == ' ' || c == '\t' || c == '\n' || c == '\r' || c == '\x0b' || c == '\x0c'

/-- Python `str.strip()`: drop leading and trailing whitespace. -/
def pyStrip (s : String) : String :=
  String.mk (((s.toList.dropWhile isPySpace).reverse.dropWhile isPySpace).reverse)

/-- The outcome of one engine child process: captured streams and exit
status, as returned by `subprocess.run(..., capture_output=True, text=True)`
(which never raises on a non-zero exit status). -/
structure ProcResult where
  exitCode : Int
  stdout : String
  stderr : String

/-- Embedding of `NetmetaBridge._run_r_script`, lines 95-108 of
`r_bridge.py`: post-processing of a finished engine process.  JSON
decoding (`json.loads`, an external library) is a parameter: `parse`
returns the decoded document or the decode-error message. -/
def runRScript (parse : String → Except String Json) (r : ProcResult) : Json :=
  if r.exitCode ≠ 0 then
    Json.obj [("error", Json.str ("R error: " ++ r.stderr))]
  else
    let output := pyStrip r.stdout
    if output = "" then
      Json.obj [("error", Json.str "No output from R")]
    else
      match parse output with
      | .ok j => j
      | .error e =>
          Json.obj [("error", Json.str ("Failed to parse R output: " ++ e)),
                    ("raw_output", Json.str r.stdout)]

/-- The persisted `netmeta` result object (`saveRDS(result, state_file)`).
Only the fields the generated scripts read are modelled.  The engine is a
black box; the scripts merely select and rearrange these fields.

* `trts` — `result$trts`, the engine-assigned ordered treatment list
  (distinct, and of length ≥ 2 whenever `netmeta` succeeds);
* `referenceGroup` — `result$reference.group`.  `run_netmeta` always
  passes `reference.group = ""` when the caller supplies no reference
  (the "netmeta quirk" comment at line 131 of `r_bridge.py`), and the
  engine stores that string, so this field is a `String`, never the
  engine's null;
* matrices are total functions on 0-based positions into `trts`
  (R's 1-based `m[i, j]` is `m (i-1) (j-1)` here);
* `treat1`, `treat2`, `studlab` — the comparison columns of the
  original data as stored on the result object;
* `pscoreCommon` / `pscoreRandom` — the P-score vector computed by the
  engine's `netrank`, which names its entries by the session's
  treatments; modelled as a list parallel to `trts`. -/
structure Session where
  trts : List String
  referenceGroup : String
  sm : String
  k : Nat
  treat1 : List String
  treat2 : List String
  studlab : List String
  common : Bool
  random : Bool
  TEcommon : Nat → Nat → ℚ
  lowerCommon : Nat → Nat → ℚ
  upperCommon : Nat → Nat → ℚ
  TErandom : Nat → Nat → ℚ
  lowerRandom : Nat → Nat → ℚ
  upperRandom : Nat → Nat → ℚ
  tau : ℚ
  I2 : ℚ
  pscoreCommon : List ℚ
  pscoreRandom : List ℚ

/-- The JSON document printed by the guarded state-load preamble
(`_load_state_script`, lines 218-224 of `r_bridge.py`) when the session
artifact file does not exist; the script then terminates via `quit`. -/
def noStateError : Json :=
  Json.obj [("error", Json.str "No netmeta result available. Run runnetmeta first.")]

/-- R `which(p(l))` on a vector, with 0-based positions (R is 1-based;
the shift is uniform and no script output exposes these indices). -/
def which (p : α → Bool) : List α → List Nat
  | [] => []
  | a :: l => if p a then 0 :: (which p l).map (· + 1) else (which p l).map (· + 1)

/-- Keep the elements whose 0-based position is not listed. -/
def keepNotIdx : List α → List Nat → List α
  | [], _ => []
  | a :: l, idx =>
      let rest := keepNotIdx l ((idx.filter (fun n => decide (n ≠ 0))).map (· - 1))
      if idx.contains 0 then rest else a :: rest

/-- R negative indexing `x[-idx]` for a list of positions to drop,
including the famous gotcha: when `idx` is the empty integer vector,
`x[-integer(0)]` is `x[integer(0)]`, the empty vector — not `x`. -/
def negIndex (l : List α) (idx : List Nat) : List α :=
  if idx = [] then [] else keepNotIdx l idx

/-- `upperPairs n` enumerates the R double loop of `run_netmeta`
(lines 176-177 and 196-197 of `r_bridge.py`): `for i in 1:(n-1)`,
`for j in (i+1):n`, translated to 0-based positions.  Faithful for
`n ≥ 2`; for `n = 1` R's `1:(n-1)` counts downwards (`c(1, 0)`), but the
engine guarantees at least two treatments whenever `netmeta` succeeds. -/
def upperPairs (n : Nat) : List (Nat × Nat) :=
  (List.range (n - 1)).flatMap (fun i =>
    (List.range (n - (i + 1))).map (fun d => (i, d + (i + 1))))

/-- One treatment-pair estimate block of the `run_netmeta` output. -/
def comparisonEntry (trts : List String) (te lo up : Nat → Nat → ℚ)
    (p : Nat × Nat) : Json :=
  Json.obj [("treat1", Json.str (trts.getD p.1 "")),
            ("treat2", Json.str (trts.getD p.2 "")),
            ("effect", Json.num (te p.1 p.2)),
            ("ci_lower", Json.num (lo p.1 p.2)),
            ("ci_upper", Json.num (up p.1 p.2))]

/-- The `output` document built by the `run_netmeta` script
(lines 153-211 of `r_bridge.py`): base fields, then — conditionally —
`heterogeneity` (when `result$random`), `fixed_effects`
(when `result$common`) and `random_effects` (when `result$random`).
`nComparisons` is `nrow(data)`. -/
def runNetmetaOutput (r : Session) (nComparisons : Nat) : Json :=
  let base := [("treatments", Json.arr (r.trts.map Json.str)),
               ("n_studies", Json.num (r.k : ℚ)),
               ("n_comparisons", Json.num (nComparisons : ℚ)),
               ("sm", Json.str r.sm),
               ("reference", Json.str r.referenceGroup)]
  let het := if r.random then
      [("heterogeneity", Json.obj [("tau2", Json.num (r.tau ^ 2)),
                                   ("tau", Json.num r.tau),
                                   ("I2", Json.num r.I2)])]
    else []
  let fe := if r.common then
      [("fixed_effects", Json.arr ((upperPairs r.trts.length).map
          (comparisonEntry r.trts r.TEcommon r.lowerCommon r.upperCommon)))]
    else []
  let re := if r.random then
      [("random_effects", Json.arr ((upperPairs r.trts.length).map
          (comparisonEntry r.trts r.TErandom r.lowerRandom r.upperRandom)))]
    else []
  Json.obj (base ++ het ++ fe ++ re)

/-- The script of `get_network_graph` (lines 228-257 of `r_bridge.py`),
run against the loaded state.  Nodes carry a 1-based `id` and the
treatment name as `label`.  Edges come from
`aggregate(study ~ from + to, ...)`, which groups the comparison rows by
the distinct *ordered* `(from, to)` combinations and counts the rows of
each group.  R returns the groups sorted by the grouping factors; the
embedding enumerates them via `List.dedup` instead, and every theorem
below is insensitive to the order of the edge list. -/
def getNetworkGraph : Option Session → Json
  | none => noStateError
  | some r =>
      let nodes := (List.range r.trts.length).map (fun i =>
        Json.obj [("id", Json.num ((i + 1 : Nat) : ℚ)),
                  ("label", Json.str (r.trts.getD i ""))])
      let rows := r.treat1.zip r.treat2
      let keys := rows.dedup
      let edges := keys.map (fun p =>
        Json.obj [("from", Json.str p.1),
                  ("to", Json.str p.2),
                  ("n_studies",
                    Json.num (((rows.filter (fun q => decide (q = p))).length : ℚ)))])
      Json.obj [("nodes", Json.arr nodes), ("edges", Json.arr edges)]

/-- The script of `get_league_table` (lines 265-291 of `r_bridge.py`):
selects the common or random matrices per the `random` flag and emits
them as row-major nested lists, with the treatment list and `sm`. -/
def getLeagueTable (random : Bool) : Option Session → Json
  | none => noStateError
  | some r =>
      let te := if random then r.TErandom else r.TEcommon
      let lower := if random then r.lowerRandom else r.lowerCommon
      let upper := if random then r.upperRandom else r.upperCommon
      let n := r.trts.length
      let row := fun (m : Nat → Nat → ℚ) (i : Nat) =>
        Json.arr ((List.range n).map (fun j => Json.num (m i j)))
      Json.obj [("treatments", Json.arr (r.trts.map Json.str)),
                ("effects", Json.arr ((List.range n).map (row te))),
                ("ci_lower", Json.arr ((List.range n).map (row lower))),
                ("ci_upper", Json.arr ((List.range n).map (row upper))),
                ("sm", Json.str r.sm)]

/-- `#(> x)` among the scores: used by R `rank(-scores)`. -/
def countGt (xs : List ℚ) (x : ℚ) : Nat :=
  (xs.filter (fun y => decide (x < y))).length

/-- `#(= x)` among the scores. -/
def countEq (xs : List ℚ) (x : ℚ) : Nat :=
  (xs.filter (fun y => decide (y = x))).length

/-- R `rank(-scores)` with the default `ties.method = "average"`:
the rank of `x` is the number of strictly larger scores plus the average
position among the scores equal to `x` — so `k` tied scores all receive
the fractional rank `#greater + (k + 1) / 2`. -/
def rankNegAvg (xs : List ℚ) : List ℚ :=
  xs.map (fun x => (countGt xs x : ℚ) + ((countEq xs x : ℚ) + 1) / 2)

/-- R `order(v)`: the positions that sort `v` ascending, ties kept in
position order (a stable sort, as R's `order` breaks ties by index). -/
def argsortQ (v : List ℚ) : List Nat :=
  List.insertionSort (fun i j => v.getD i 0 ≤ v.getD j 0) (List.range v.length)

/-- The P-score vector the `get_ranking` script selects per its
`random` flag. -/
def scoresFor (random : Bool) (r : Session) : List ℚ :=
  if random then r.pscoreRandom else r.pscoreCommon

/-- The script of `get_ranking` (lines 299-326 of `r_bridge.py`):
P-scores from the engine's `netrank` (named by the session's
treatments), ranks via `rank(-scores)`, and all three sequences emitted
re-ordered by `order(ranks)`. -/
def getRanking (random : Bool) : Option Session → Json
  | none => noStateError
  | some r =>
      let scores := scoresFor random r
      let treatments := r.trts
      let ranks := rankNegAvg scores
      let ord := argsortQ ranks
      Json.obj [("treatments", Json.arr (ord.map (fun i => Json.str (treatments.getD i "")))),
                ("p_scores", Json.arr (ord.map (fun i => Json.num (scores.getD i 0)))),
                ("ranks", Json.arr (ord.map (fun i => Json.num (ranks.getD i 0))))]

/-- The reference-resolution chain of the `get_forest_data` script
(lines 338-340 of `r_bridge.py`), kept step by step:
`ref <- caller, if (is.null(ref)) ref <- result$reference.group,
if (is.null(ref)) ref <- result$trts[1]`.  Since `reference.group` is a
string (never the engine's null) for every session this bridge writes,
the final fallback is unreachable. -/
def forestResolvedRef (caller : Option String) (r : Session) : Option String :=
  (caller <|> some r.referenceGroup) <|> some (r.trts.getD 0 "")

/-- The script of `get_forest_data` (lines 335-371 of `r_bridge.py`).
`which` yields at most one position because the engine's treatment list
is distinct; the R scalar `te[trt_idx, ref_idx]` is read off through
`headD`.  When the resolved reference matches no treatment,
`trts[-which(...)]` is the empty vector (the `x[-integer(0)]` gotcha)
and no comparison is emitted. -/
def getForestData (reference : Option String) (random : Bool) :
    Option Session → Json
  | none => noStateError
  | some r =>
      let ref := (forestResolvedRef reference r).getD ""
      let te := if random then r.TErandom else r.TEcommon
      let lower := if random then r.lowerRandom else r.lowerCommon
      let upper := if random then r.upperRandom else r.upperCommon
      let refIdx := which (fun x => decide (x = ref)) r.trts
      let otherTrts := negIndex r.trts refIdx
      let comparisons := otherTrts.map (fun trt =>
        let trtIdx := which (fun x => decide (x = trt)) r.trts
        Json.obj [("treatment", Json.str trt),
                  ("effect", Json.num (te (trtIdx.headD 0) (refIdx.headD 0))),
                  ("ci_lower", Json.num (lower (trtIdx.headD 0) (refIdx.headD 0))),
                  ("ci_upper", Json.num (upper (trtIdx.headD 0) (refIdx.headD 0)))])
      Json.obj [("reference", Json.str ref),
                ("sm", Json.str r.sm),
                ("comparisons", Json.arr comparisons)]

/-- The treatment names a forest-data response mentions: the resolved
reference plus the `treatment` of every comparison entry. -/
def forestMentioned (j : Json) : List String :=
  (match j.field "reference" with
   | some (Json.str s) => [s]
   | _ => []) ++
  (j.field "comparisons").elim [] (fun c =>
    c.elems.filterMap (fun e =>
      match e.field "treatment" with
      | some (Json.str s) => some s
      | _ => none))

/-- One pairwise comparison record, as accepted by `run_netmeta`. -/
structure PairRow where
  study : String
  treat1 : String
  treat2 : String
  TE : ℚ
  seTE : ℚ

/-- The bridge operations that touch the session artifact. -/
inductive Op where
  | runOp (data : List PairRow) (sm : String) (reference : Option String)
      (combFixed combRandom : Bool)
  | graphOp
  | leagueOp (random : Bool)
  | rankOp (random : Bool)
  | forestOp (reference : Option String) (random : Bool)

/-- The black-box statistical fit: from the request to either a fitted
session object or the message of the error the script's `tryCatch`
reports. -/
def Engine : Type :=
  List PairRow → String → Option String → Bool → Bool → Except String Session

/-- Sequential semantics of one bridge operation over the session
artifact (`Option Session`: `none` iff the state file does not exist).
`run_netmeta` saves the fitted object (line 151 of `r_bridge.py`) before
printing its output; when the fit errors, `tryCatch` prints the error
and the artifact is left untouched.  The four read operations only load
the artifact. -/
def step (engine : Engine) (st : Option Session) : Op → Json × Option Session
  | .runOp d sm ref cf cr =>
      match engine d sm ref cf cr with
      | .error msg => (Json.obj [("error", Json.str msg)], st)
      | .ok s => (runNetmetaOutput s d.length, some s)
  | .graphOp => (getNetworkGraph st, st)
  | .leagueOp b => (getLeagueTable b st, st)
  | .rankOp b => (getRanking b st, st)
  | .forestOp ref b => (getForestData ref b st, st)

/-! ### The CSV conversion layer (`csv_to_json` in `server.py`) -/

/-- A Python exception escaping `csv_to_json` (which has no handler). -/
inductive PyExc where
  | valueError (msg : String)
  | typeError (msg : String)
deriving DecidableEq

/-- Split a character list at every occurrence of `sep`. -/
def splitOnChar (sep : Char) : List Char → List (List Char)
  | [] => [[]]
  | a :: r =>
      let rest := splitOnChar sep r
      if a == sep then [] :: rest
      else (a :: rest.headD []) :: rest.tail

/-- Universal-newline translation (`io.StringIO`): `\r\n` and lone `\r`
both become `\n`. -/
def normNl : List Char → List Char
  | [] => []
  | '\r' :: '\n' :: r => '\n' :: normNl r
  | '\r' :: r => '\n' :: normNl r
  | a :: r => a :: normNl r

/-- The value of a digit string, most significant first. -/
def charsToNat (l : List Char) : Nat :=
  l.foldl (fun a c => a * 10 + (c.toNat - '0'.toNat)) 0

/-- Python `float(s)` on the common finite decimal notation: optional
surrounding whitespace and sign, digits with at most one point, and an
optional integer exponent.  (The special literals `inf`/`nan` and digit
underscores, which Python also accepts but which denote no rational,
are out of the model; no claim depends on them.) -/
def pyFloat (s : String) : Option ℚ :=
  let l := (pyStrip s).toList
  let sl : ℚ × List Char :=
    match l with
    | '+' :: r => (1, r)
    | '-' :: r => (-1, r)
    | r => (1, r)
  let mant := sl.2.takeWhile (fun c => !(c == 'e' || c == 'E'))
  let expPart := sl.2.dropWhile (fun c => !(c == 'e' || c == 'E'))
  let expVal : Option ℤ :=
    match expPart with
    | [] => some 0
    | _ :: er =>
        let es : ℤ × List Char :=
          match er with
          | '+' :: r => (1, r)
          | '-' :: r => (-1, r)
          | r => (1, r)
        if !es.2.isEmpty && es.2.all (·.isDigit) then some (es.1 * charsToNat es.2)
        else none
  let ip := mant.takeWhile (fun c => !(c == '.'))
  let dotFrac := mant.dropWhile (fun c => !(c == '.'))
  let fracOk : Option (List Char) :=
    match dotFrac with
    | [] => some []
    | _ :: fr => if fr.all (fun c => !(c == '.')) then some fr else none
  match fracOk, expVal with
  | some frac, some e =>
      if ip.all (·.isDigit) && frac.all (·.isDigit) && (!ip.isEmpty || !frac.isEmpty)
      then some (sl.1 * ((charsToNat ip : ℚ) + (charsToNat frac : ℚ) / (10 : ℚ) ^ frac.length)
                   * (10 : ℚ) ^ e)
      else none
  | _, _ => none

/-- Python `int(s)`: optional surrounding whitespace, sign, digits. -/
def pyInt (s : String) : Option ℤ :=
  let l := (pyStrip s).toList
  let sl : ℤ × List Char :=
    match l with
    | '+' :: r => (1, r)
    | '-' :: r => (-1, r)
    | r => (1, r)
  if !sl.2.isEmpty && sl.2.all (·.isDigit) then some (sl.1 * charsToNat sl.2) else none

/-- The physical lines of the stripped CSV text. -/
def csvLines (content : String) : List String :=
  (splitOnChar '\n' (normNl (pyStrip content).toList)).map String.mk

/-- The comma-separated fields of one CSV line.  This models
`csv.DictReader` for unquoted CSV, which every input of interest here
is; quoting rules are not modelled. -/
def csvFields (line : String) : List String :=
  (splitOnChar ',' line.toList).map String.mk

/-- The header (`reader.fieldnames`, equivalently the keys of the first
record): the fields of the first line.  An entirely empty input has no
first row, hence no fieldnames and no records. -/
def csvHeader (content : String) : List String :=
  if pyStrip content = "" then [] else csvFields ((csvLines content).headD "")

/-- The data records (`records = list(reader)`): one per non-empty line
after the header — `csv.DictReader` skips blank rows. -/
def csvRows (content : String) : List (List String) :=
  if pyStrip content = "" then []
  else ((csvLines content).tail.filter (fun l => decide (l ≠ ""))).map csvFields

/-- `row[col]` on a `DictReader` record: the field at the header
position of `col`.  `none` models both a column absent from the header
(Python `KeyError` — never reached by `csv_to_json`, which validates
the required columns first) and a row too short for the column
(Python fills the missing keys with the restval `None`). -/
def rowLookup (header row : List String) (col : String) : Option String :=
  match header.indexOf? col with
  | none => none
  | some i => row.get? i

/-- A string-typed field of the output record: `None` becomes JSON null. -/
def strField (header row : List String) (col : String) : Json :=
  match rowLookup header row col with
  | some s => Json.str s
  | none => Json.null

/-- `float(row[col])`: raises `TypeError` on `None`, `ValueError` on a
string that is not a float literal. -/
def numFieldF (header row : List String) (col : String) : Except PyExc Json :=
  match rowLookup header row col with
  | none => .error (.typeError "float() argument must be a string or a real number, not NoneType")
  | some s =>
      match pyFloat s with
      | some q => .ok (Json.num q)
      | none => .error (.valueError ("could not convert string to float: \x27" ++ s ++ "\x27"))

/-- `int(row[col])`: raises `TypeError` on `None`, `ValueError` on a
string that is not an integer literal. -/
def numFieldI (header row : List String) (col : String) : Except PyExc Json :=
  match rowLookup header row col with
  | none => .error (.typeError "int() argument must be a string, a bytes-like object or a real number, not NoneType")
  | some s =>
      match pyInt s with
      | some z => .ok (Json.num (z : ℚ))
      | none => .error (.valueError ("invalid literal for int() with base 10: \x27" ++ s ++ "\x27"))

/-- One output record of the `pairwise` branch (lines 250-258 of
`server.py`); the numeric conversions run in the order the Python dict
literal evaluates them (`TE` before `seTE`). -/
def pairwiseRow (header row : List String) : Except PyExc Json := do
  let te ← numFieldF header row "TE"
  let se ← numFieldF header row "seTE"
  .ok (Json.obj [("study", strField header row "study"),
                 ("treat1", strField header row "treat1"),
                 ("treat2", strField header row "treat2"),
                 ("TE", te), ("seTE", se)])

/-- One output record of the `arm_binary` branch (lines 280-287). -/
def armBinaryRow (header row : List String) : Except PyExc Json := do
  let ev ← numFieldI header row "events"
  let n ← numFieldI header row "n"
  .ok (Json.obj [("study", strField header row "study"),
                 ("treatment", strField header row "treatment"),
                 ("events", ev), ("n", n)])

/-- One output record of the `arm_continuous` branch (lines 308-317). -/
def armContinuousRow (header row : List String) : Except PyExc Json := do
  let mean ← numFieldF header row "mean"
  let sd ← numFieldF header row "sd"
  let n ← numFieldI header row "n"
  .ok (Json.obj [("study", strField header row "study"),
                 ("treatment", strField header row "treatment"),
                 ("mean", mean), ("sd", sd), ("n", n)])

/-- The `for row in records: data.append(...)` loop: converts the rows
in order; the first failing conversion raises. -/
def convertRows (conv : List String → Except PyExc Json) :
    List (List String) → Except PyExc (List Json)
  | [] => .ok []
  | r :: rest =>
      match conv r with
      | .error e => .error e
      | .ok j =>
          match convertRows conv rest with
          | .error e => .error e
          | .ok js => .ok (j :: js)

/-- The required columns of each format.  The source writes them as
Python set literals; this list fixes the literal's written order, which
only matters for rendering (Python set iteration order is
implementation-defined). -/
def requiredFor (fmt : String) : List String :=
  if fmt = "pairwise" then ["study", "treat1", "treat2", "TE", "seTE"]
  else if fmt = "arm_binary" then ["study", "treatment", "events", "n"]
  else if fmt = "arm_continuous" then ["study", "treatment", "mean", "sd", "n"]
  else []

/-- `missing = required - set(columns)`: exactly the required columns
the header lacks. -/
def missingFor (fmt : String) (columns : List String) : List String :=
  (requiredFor fmt).filter (fun c => !columns.contains c)

/-- Python `str` of a set of strings, as interpolated into the error
message (element order fixed as in `missingFor`). -/
def renderPySet (l : List String) : String :=
  "\x7b" ++ String.intercalate ", " (l.map (fun s => "\x27" ++ s ++ "\x27")) ++ "\x7d"

/-- The structured missing-columns error (e.g. lines 240-245 of
`server.py`). -/
def missingErrorFor (fmt : String) (columns : List String) : Json :=
  Json.obj [("error", Json.str ("Missing required columns for " ++ fmt ++ " format: "
              ++ renderPySet (missingFor fmt columns))),
            ("found_columns", Json.arr (columns.map Json.str)),
            ("required_columns", Json.arr ((requiredFor fmt).map Json.str))]

/-- The per-format row conversion (meaningful for recognized formats). -/
def rowConvertFor (fmt : String) (header row : List String) : Except PyExc Json :=
  if fmt = "pairwise" then pairwiseRow header row
  else if fmt = "arm_binary" then armBinaryRow header row
  else armContinuousRow header row

/-- `{"error": "No data found in CSV"}` (line 232 of `server.py`). -/
def noDataError : Json :=
  Json.obj [("error", Json.str "No data found in CSV")]

/-- The success document of `csv_to_json`. -/
def successDoc (fmt : String) (columns : List String) (dataRows : List Json)
    (nextStep : String) : Json :=
  Json.obj [("data", Json.arr dataRows),
            ("n_records", Json.num (dataRows.length : ℚ)),
            ("columns", Json.arr (columns.map Json.str)),
            ("format", Json.str fmt),
            ("next_step", Json.str nextStep)]

/-- The `next_step` hint of the pairwise success document. -/
def nextStepPairwise : String :=
  "Use runnetmeta(data=result[\x27data\x27], sm=\x27OR\x27) to run network meta-analysis"

/-- The `next_step` hint of the arm-binary success document. -/
def nextStepArmBinary : String :=
  "Use pairwise_to_netmeta(data=result[\x27data\x27], outcome_type=\x27binary\x27) to convert, then runnetmeta()"

/-- The `next_step` hint of the arm-continuous success document. -/
def nextStepArmContinuous : String :=
  "Use pairwise_to_netmeta(data=result[\x27data\x27], outcome_type=\x27continuous\x27) to convert, then runnetmeta()"

/-- One format branch of `csv_to_json`: the three `elif` bodies of the
source (lines 237-266, 268-295 and 297-325 of `server.py`) are textually
identical up to the format name, the required-column set, the row
conversion and the `next_step` hint, so they are factored through this
helper; `csvToJson` below instantiates it exactly as each branch reads. -/
def fmtBranch (fmt : String) (conv : List String → List String → Except PyExc Json)
    (nextStep : String) (header : List String) (rows : List (List String)) :
    Except PyExc Json :=
  if missingFor fmt header ≠ [] then .ok (missingErrorFor fmt header)
  else
    match convertRows (conv header) rows with
    | .error e => .error e
    | .ok ds => .ok (successDoc fmt header ds nextStep)

/-- Embedding of `csv_to_json` (lines 227-331 of `server.py`).  Result
`.ok` is a normal return (possibly a structured error document);
`.error` is a Python exception escaping the function. -/
def csvToJson (csvContent : String) (dataFormat : String) : Except PyExc Json :=
  let header := csvHeader csvContent
  let rows := csvRows csvContent
  if rows = [] then .ok noDataError
  else if dataFormat = "pairwise" then
    fmtBranch "pairwise" pairwiseRow nextStepPairwise header rows
  else if dataFormat = "arm_binary" then
    fmtBranch "arm_binary" armBinaryRow nextStepArmBinary header rows
  else if dataFormat = "arm_continuous" then
    fmtBranch "arm_continuous" armContinuousRow nextStepArmContinuous header rows
  else
    .ok (Json.obj [("error", Json.str ("Unknown data_format: " ++ dataFormat)),
                   ("valid_formats", Json.arr [Json.str "pairwise", Json.str "arm_binary",
                                              Json.str "arm_continuous"])])

/-! ### Concrete fixtures for witnesses and counterexamples -/

/-- The all-zero effect matrix (the matrix values are irrelevant to the
structural claims the fixtures serve). -/
def zeroMat : Nat → Nat → ℚ := fun _ _ => 0

/-- A session fixture with the given treatments, stored reference,
comparison columns and P-score vector. -/
def mkSession (trts : List String) (ref : String) (t1 t2 : List String)
    (ps : List ℚ) : Session :=
  { trts := trts, referenceGroup := ref, sm := "OR", k := t1.length,
    treat1 := t1, treat2 := t2, studlab := t1.map (fun _ => "s"),
    common := true, random := true,
    TEcommon := zeroMat, lowerCommon := zeroMat, upperCommon := zeroMat,
    TErandom := zeroMat, lowerRandom := zeroMat, upperRandom := zeroMat,
    tau := 0, I2 := 0, pscoreCommon := ps, pscoreRandom := ps }

/-- A session written by a `run_netmeta` call that had no caller
reference: `reference.group` is the empty string. -/
def sessNoRef : Session := mkSession ["A", "B"] "" ["A"] ["B"] [1, 2]

/-- A session whose analysis was run with reference treatment `A`. -/
def sessRef : Session := mkSession ["A", "B"] "A" ["A"] ["B"] [1, 2]

/-- A session whose comparison data used both orientations of the same
unordered treatment pair. -/
def sessTwoWay : Session := mkSession ["B", "C"] "" ["B", "C"] ["C", "B"] [1, 2]

/-- A session with two exactly tied P-scores. -/
def sessTied : Session := mkSession ["A", "B"] "A" ["A"] ["B"] [1, 1]

/-- A three-treatment session. -/
def sessThree : Session := mkSession ["A", "B", "C"] "" ["A", "B"] ["B", "C"] [1, 2, 3]

/-- A black-box engine stub that always fits successfully. -/
def engineStub : Engine := fun _ _ _ _ _ => .ok sessRef

/-- A JSON decoder stub for exercising the facade branches. -/
def parseStub : String → Except String Json := fun _ => .ok Json.null

/-- A process outcome with a non-zero exit status and captured stderr. -/
def procErr : ProcResult := { exitCode := 1, stdout := "", stderr := "boom" }

/-- Swap a pair into lexicographic order, to name unordered pairs. -/
def canonPair (p : String × String) : String × String :=
  match compare p.1 p.2 with
  | .gt => (p.2, p.1)
  | _ => p

/-- The distinct unordered treatment pairs of a comparison-row list. -/
def unorderedKeys (rows : List (String × String)) : List (String × String) :=
  (rows.map canonPair).dedup

/-- The claim-side enumeration of C7: all pairs `(i, j)` with `i < j`
drawn from the row-major grid over `n` positions — strictly
upper-triangular, row-major. -/
def strictUpperRowMajor (n : Nat) : List (Nat × Nat) :=
  ((List.range n).flatMap (fun i => (List.range n).map (fun j => (i, j)))).filter
    (fun p => decide (p.1 < p.2))

/-- The numbers under the `ranks` key of a ranking response. -/
def ranksOf (j : Json) : List ℚ :=
  (j.field "ranks").elim [] (fun a => a.elems.filterMap (fun e =>
    match e with
    | Json.num q => some q
    | _ => none))

/-- Whether a Python-level result is an escaped exception. -/
def raised : Except PyExc α → Bool
  | .error _ => true
  | .ok _ => false

/-- The message of an escaped exception, when there is one. -/
def raisedMsg : Except PyExc α → Option String
  | .error (.valueError m) => some m
  | .error (.typeError m) => some m
  | .ok _ => none

/-- A pairwise CSV whose `TE` column holds a non-numeric value. -/
def badTECsv : String := "study,treat1,treat2,TE,seTE\ns1,A,B,abc,0.2"

/-- A pairwise CSV whose header lacks the `seTE` column (and whose data
row could not be converted, were conversion attempted). -/
def noSeTECsv : String := "study,treat1,treat2,TE\ns1,A,B,zz"

/-- One comparison entry of the forest-data output: treatment at
position `j` versus the reference at position `i`, per the `random`
flag. -/
def forestEntry (s : Session) (b : Bool) (i j : Nat) : Json :=
  Json.obj [("treatment", Json.str (s.trts.getD j "")),
            ("effect", Json.num ((if b then s.TErandom else s.TEcommon) j i)),
            ("ci_lower", Json.num ((if b then s.lowerRandom else s.lowerCommon) j i)),
            ("ci_upper", Json.num ((if b then s.upperRandom else s.upperCommon) j i))]


/-! ### Helper lemmas -/

theorem flatMap_congr_mem (l : List α) (f g : α → List β) (h : ∀ a ∈ l, f a = g a) :
    l.flatMap f = l.flatMap g := by
  induction l with
  | nil => rfl
  | cons a t ih =>
      rw [List.flatMap_cons, List.flatMap_cons, h a (List.mem_cons_self a t),
        ih (fun x hx => h x (List.mem_cons_of_mem a hx))]

theorem map_getD_range (l : List α) (d : α) :
    (List.range l.length).map (fun i => l.getD i d) = l := by
  induction l with
  | nil => simp
  | cons a t ih =>
      rw [List.length_cons, List.range_succ_eq_map, List.map_cons, List.map_map]
      simp only [List.getD_cons_zero]
      have hc : ((fun i => (a :: t).getD i d) ∘ Nat.succ) = fun i => t.getD i d := by
        funext i; simp [List.getD_cons_succ]
      rw [hc, ih]

theorem which_eq_nil (p : α → Bool) (l : List α) (h : ∀ a ∈ l, p a = false) :
    which p l = [] := by
  induction l with
  | nil => rfl
  | cons a t ih =>
      have ha := h a (List.mem_cons_self a t)
      rw [which, ha]
      simp [ih (fun x hx => h x (List.mem_cons_of_mem a hx))]

theorem which_eq_singleton [DecidableEq α] (l : List α) (a : α)
    (hnd : l.Nodup) (h : a ∈ l) :
    which (fun x => decide (x = a)) l = [l.indexOf a] := by
  induction l with
  | nil => cases h
  | cons b t ih =>
      by_cases hba : b = a
      · subst hba
        have hnotin : b ∉ t := (List.nodup_cons.mp hnd).1
        rw [which]
        rw [if_pos (by simp)]
        rw [which_eq_nil _ t (fun x hx => by
          simp only [decide_eq_false_iff_not]
          rintro rfl; exact hnotin hx)]
        simp [List.indexOf_cons_self]
      · have hmem : a ∈ t := by
          rcases List.mem_cons.mp h with rfl | hmem
          · exact absurd rfl hba
          · exact hmem
        rw [which]
        rw [if_neg (by simp [hba])]
        rw [ih (List.nodup_cons.mp hnd).2 hmem]
        rw [List.indexOf_cons_ne _ hba]
        rfl

theorem keepNotIdx_nil_idx (l : List α) : keepNotIdx l [] = l := by
  induction l with
  | nil => rfl
  | cons a t ih => rw [keepNotIdx]; simp [ih]

theorem keepNotIdx_singleton (l : List α) (i : Nat) :
    keepNotIdx l [i] = l.eraseIdx i := by
  induction l generalizing i with
  | nil => rfl
  | cons a t ih =>
      cases i with
      | zero =>
          rw [keepNotIdx]
          simp [keepNotIdx_nil_idx]
      | succ n =>
          rw [keepNotIdx]
          have h1 : ([n + 1].filter (fun m => decide (m ≠ 0))).map (· - 1) = [n] := by simp
          rw [h1]
          simp [ih, List.eraseIdx]

theorem succ_filter_ne_map (n i : Nat) :
    ((List.range n).map Nat.succ).filter (fun j => decide (j ≠ i + 1)) =
      ((List.range n).filter (fun j => decide (j ≠ i))).map Nat.succ := by
  rw [List.filter_map]
  congr 1
  apply List.filter_congr
  intro x _
  simp [Function.comp, Nat.succ_ne_succ]

theorem eraseIdx_eq_map_filter_range (l : List α) (d : α) (i : Nat) :
    l.eraseIdx i =
      ((List.range l.length).filter (fun j => decide (j ≠ i))).map (fun j => l.getD j d) := by
  induction l generalizing i with
  | nil => simp
  | cons a t ih =>
      have hc : ((fun j => (a :: t).getD j d) ∘ Nat.succ) = fun j => t.getD j d := by
        funext j; simp [List.getD_cons_succ]
      cases i with
      | zero =>
          rw [List.eraseIdx]
          rw [List.length_cons, List.range_succ_eq_map]
          rw [List.filter_cons]
          rw [if_neg (by simp)]
          rw [List.filter_map]
          have hall : (List.range t.length).filter ((fun j => decide (j ≠ 0)) ∘ Nat.succ) =
              List.range t.length :=
            List.filter_eq_self.mpr (fun x _ => by simp)
          rw [hall, List.map_map, hc, map_getD_range]
      | succ n =>
          rw [List.eraseIdx]
          rw [List.length_cons, List.range_succ_eq_map]
          rw [List.filter_cons]
          rw [if_pos (by simp)]
          rw [List.map_cons, List.getD_cons_zero]
          rw [succ_filter_ne_map, List.map_map, hc]
          rw [ih n]

theorem perm_cons_eraseIdx (l : List α) (i : Nat) (hi : i < l.length) (d : α) :
    l.Perm (l.getD i d :: l.eraseIdx i) := by
  induction l generalizing i with
  | nil => cases hi
  | cons a t ih =>
      cases i with
      | zero => simp [List.eraseIdx]
      | succ n =>
          have hn : n < t.length := Nat.lt_of_succ_lt_succ hi
          rw [List.getD_cons_succ, List.eraseIdx]
          exact ((ih n hn).cons a).trans (List.Perm.swap _ _ _)

theorem nodup_indexOf_getD [DecidableEq α] {l : List α} (hnd : l.Nodup) {j : Nat}
    (hj : j < l.length) (d : α) : l.indexOf (l.getD j d) = j := by
  have hmem : l.getD j d ∈ l := by
    rw [List.getD_eq_getElem _ _ hj]; exact List.getElem_mem _
  have hlt : l.indexOf (l.getD j d) < l.length := List.indexOf_lt_length.mpr hmem
  have hget : l.get ⟨l.indexOf (l.getD j d), hlt⟩ = l.getD j d := List.indexOf_get hlt
  have hget2 : l.get ⟨j, hj⟩ = l.getD j d := by
    rw [List.getD_eq_getElem _ _ hj]; rfl
  have hinj := (List.Nodup.get_inj_iff hnd
    (i := ⟨l.indexOf (l.getD j d), hlt⟩) (j := ⟨j, hj⟩)).mp (hget.trans hget2.symm)
  exact congrArg Fin.val hinj

theorem range_filter_lt (n i : Nat) :
    (List.range n).filter (fun j => decide (i < j)) =
      (List.range (n - (i + 1))).map (fun d => d + (i + 1)) := by
  by_cases h : i + 1 ≤ n
  · obtain ⟨k, rfl⟩ : ∃ k, n = (i + 1) + k := ⟨n - (i + 1), by omega⟩
    rw [List.range_add, List.filter_append]
    have h1 : (List.range (i + 1)).filter (fun j => decide (i < j)) = [] :=
      List.filter_eq_nil_iff.mpr (fun x hx => by
        simp only [decide_eq_true_eq, not_lt]
        exact Nat.lt_succ_iff.mp (List.mem_range.mp hx))
    have h2 : ((List.range k).map (fun x => (i + 1) + x)).filter (fun j => decide (i < j)) =
        (List.range k).map (fun x => (i + 1) + x) :=
      List.filter_eq_self.mpr (fun x hx => by
        rcases List.mem_map.mp hx with ⟨d, _, rfl⟩
        simp; omega)
    rw [h1, h2]
    have h3 : (i + 1) + k - (i + 1) = k := by omega
    rw [h3, List.nil_append]
    apply List.map_congr_left
    intro d _
    omega
  · have h1 : n - (i + 1) = 0 := by omega
    rw [h1]
    simp only [List.range_zero, List.map_nil]
    exact List.filter_eq_nil_iff.mpr (fun x hx => by
      simp only [decide_eq_true_eq, not_lt]
      have := List.mem_range.mp hx
      omega)

theorem upperPairs_eq_strictUpper (n : Nat) :
    upperPairs n = strictUpperRowMajor n := by
  unfold strictUpperRowMajor
  rw [List.filter_flatMap]
  have hrow : ∀ i, ((List.range n).map (fun j => (i, j))).filter
      ((fun p : Nat × Nat => decide (p.1 < p.2))) =
      (List.range (n - (i + 1))).map (fun d => (i, d + (i + 1))) := by
    intro i
    rw [List.filter_map]
    have hc : ((fun p : Nat × Nat => decide (p.1 < p.2)) ∘ (fun j => (i, j))) =
        fun j => decide (i < j) := by funext j; rfl
    rw [hc, range_filter_lt, List.map_map]
    rfl
  rw [flatMap_congr_mem _ _ _ (fun i _ => hrow i)]
  cases n with
  | zero => rfl
  | succ m =>
      rw [List.range_succ, List.flatMap_append, List.flatMap_cons, List.flatMap_nil,
        List.append_nil]
      have hm : m + 1 - (m + 1) = 0 := by omega
      rw [hm]
      simp only [List.range_zero, List.map_nil, List.append_nil]
      unfold upperPairs
      have h1 : m + 1 - 1 = m := by omega
      rw [h1]

theorem countGt_lt_length (xs : List ℚ) (x : ℚ) (hx : x ∈ xs) :
    countGt xs x < xs.length := by
  apply List.length_filter_lt_length_iff_exists.mpr
  exact ⟨x, hx, by simp⟩

theorem countGt_strict_anti (xs : List ℚ) {x y : ℚ} (hy : y ∈ xs) (hxy : x < y) :
    countGt xs y < countGt xs x := by
  have h1 : xs.filter (fun z => decide (y < z)) =
      (xs.filter (fun z => decide (x < z))).filter (fun z => decide (y < z)) := by
    rw [List.filter_filter]
    apply List.filter_congr
    intro z _
    by_cases h : y < z
    · simp [h, lt_trans hxy h]
    · simp [h]
  have h2 : y ∈ xs.filter (fun z => decide (x < z)) := by
    simp [List.mem_filter, hy, hxy]
  have h3 : ((xs.filter (fun z => decide (x < z))).filter (fun z => decide (y < z))).length
      < (xs.filter (fun z => decide (x < z))).length := by
    apply List.length_filter_lt_length_iff_exists.mpr
    exact ⟨y, h2, by simp⟩
  unfold countGt
  rw [h1]; exact h3

theorem countGt_injOn (xs : List ℚ) (hnd : xs.Nodup) :
    ∀ x ∈ xs, ∀ y ∈ xs, countGt xs x = countGt xs y → x = y := by
  intro x hx y hy h
  rcases lt_trichotomy x y with hlt | heq | hgt
  · exact absurd h (Ne.symm (Nat.ne_of_lt (countGt_strict_anti xs hy hlt)))
  · exact heq
  · exact absurd h (Nat.ne_of_lt (countGt_strict_anti xs hx hgt))

theorem countGt_map_perm_range (xs : List ℚ) (hnd : xs.Nodup) :
    (xs.map (fun x => countGt xs x)).Perm (List.range xs.length) := by
  have hmnd : (xs.map (fun x => countGt xs x)).Nodup :=
    hnd.map_on (fun x hx y hy h => countGt_injOn xs hnd x hx y hy h)
  apply List.perm_of_nodup_nodup_toFinset_eq hmnd (List.nodup_range _)
  apply Finset.eq_of_subset_of_card_le
  · intro m hm
    simp only [List.mem_toFinset, List.mem_map] at hm
    rcases hm with ⟨x, hx, rfl⟩
    simp only [List.mem_toFinset, List.mem_range]
    exact countGt_lt_length xs x hx
  · rw [List.toFinset_card_of_nodup hmnd, List.toFinset_card_of_nodup (List.nodup_range _)]
    simp

theorem countEq_eq_one (xs : List ℚ) (hnd : xs.Nodup) {x : ℚ} (hx : x ∈ xs) :
    countEq xs x = 1 := by
  induction xs with
  | nil => cases hx
  | cons a l ih =>
      rcases List.mem_cons.mp hx with rfl | hmem
      · have hnotin : x ∉ l := (List.nodup_cons.mp hnd).1
        have : l.filter (fun y => decide (y = x)) = [] := by
          apply List.filter_eq_nil_iff.mpr
          intro y hy
          simp only [decide_eq_true_eq]
          exact fun h => hnotin (h ▸ hy)
        simp [countEq, List.filter_cons, this]
      · have hne : a ≠ x := by
          rintro rfl
          exact (List.nodup_cons.mp hnd).1 hmem
        have := ih (List.nodup_cons.mp hnd).2 hmem
        simpa [countEq, List.filter_cons, hne] using this

theorem rankNegAvg_eq_of_nodup (xs : List ℚ) (hnd : xs.Nodup) :
    rankNegAvg xs = xs.map (fun x => (countGt xs x : ℚ) + 1) := by
  unfold rankNegAvg
  apply List.map_congr_left
  intro x hx
  rw [countEq_eq_one xs hnd hx]
  norm_num

theorem rankNegAvg_perm (xs : List ℚ) (hnd : xs.Nodup) :
    (rankNegAvg xs).Perm ((List.range xs.length).map (fun k : ℕ => (k : ℚ) + 1)) := by
  rw [rankNegAvg_eq_of_nodup xs hnd]
  have h := (countGt_map_perm_range xs hnd).map (fun k : ℕ => (k : ℚ) + 1)
  simpa [List.map_map, Function.comp] using h

theorem rankNegAvg_max_eq_one (xs : List ℚ) (hnd : xs.Nodup) (i : Nat)
    (hi : i < xs.length) (hmax : ∀ j < xs.length, xs.getD j 0 ≤ xs.getD i 0) :
    (rankNegAvg xs).getD i 0 = 1 := by
  have hlen : (rankNegAvg xs).length = xs.length := by simp [rankNegAvg]
  have hget : (rankNegAvg xs).getD i 0 =
      (countGt xs (xs.getD i 0) : ℚ) + ((countEq xs (xs.getD i 0) : ℚ) + 1) / 2 := by
    rw [List.getD_eq_getElem _ _ (hlen ▸ hi), List.getD_eq_getElem _ _ hi]
    simp [rankNegAvg]
  rw [hget]
  have hcg : countGt xs (xs.getD i 0) = 0 := by
    unfold countGt
    rw [List.length_eq_zero]
    apply List.filter_eq_nil_iff.mpr
    intro y hy
    simp only [decide_eq_true_eq, not_lt]
    rcases List.mem_iff_getElem.mp hy with ⟨j, hj, rfl⟩
    have := hmax j hj
    rwa [List.getD_eq_getElem _ _ hj] at this
  have hmem : xs.getD i 0 ∈ xs := by
    rw [List.getD_eq_getElem _ _ hi]
    exact List.getElem_mem _
  rw [hcg, countEq_eq_one xs hnd hmem]
  norm_num

theorem argsortQ_perm (v : List ℚ) : (argsortQ v).Perm (List.range v.length) :=
  List.perm_insertionSort _ _

theorem argsortQ_sorted (v : List ℚ) :
    ((argsortQ v).map (fun i => v.getD i 0)).Sorted (· ≤ ·) := by
  haveI : IsTotal ℕ (fun i j => v.getD i 0 ≤ v.getD j 0) :=
    ⟨fun i j => le_total _ _⟩
  haveI : IsTrans ℕ (fun i j => v.getD i 0 ≤ v.getD j 0) :=
    ⟨fun _ _ _ hab hbc => le_trans hab hbc⟩
  have h := List.sorted_insertionSort (fun i j => v.getD i 0 ≤ v.getD j 0)
      (List.range v.length)
  unfold List.Sorted at h ⊢
  rw [List.pairwise_map]
  exact h

theorem forestResolvedRef_eq (cr : Option String) (s : Session) :
    forestResolvedRef cr s = some (cr.getD s.referenceGroup) := by
  cases cr <;> rfl

theorem forest_output_of_mem (s : Session) (cr : Option String) (b : Bool)
    (hnd : s.trts.Nodup) (hmem : cr.getD s.referenceGroup ∈ s.trts) :
    getForestData cr b (some s) = Json.obj
      [("reference", Json.str (cr.getD s.referenceGroup)),
       ("sm", Json.str s.sm),
       ("comparisons", Json.arr
         (((List.range s.trts.length).filter
             (fun j => decide (j ≠ s.trts.indexOf (cr.getD s.referenceGroup)))).map
           (forestEntry s b (s.trts.indexOf (cr.getD s.referenceGroup)))))] := by
  rw [getForestData]
  rw [forestResolvedRef_eq]
  simp only [Option.getD_some]
  rw [which_eq_singleton s.trts _ hnd hmem]
  rw [negIndex]
  rw [if_neg (show ¬([s.trts.indexOf (cr.getD s.referenceGroup)] = ([] : List Nat)) from by simp)]
  rw [keepNotIdx_singleton]
  rw [eraseIdx_eq_map_filter_range s.trts ("") (s.trts.indexOf (cr.getD s.referenceGroup))]
  rw [List.map_map]
  simp only [Json.obj.injEq, List.cons.injEq, Prod.mk.injEq, Json.arr.injEq, Json.str.injEq,
    and_true, true_and]
  apply List.map_congr_left
  intro j hj
  rcases List.mem_filter.mp hj with ⟨hjr, hjne⟩
  have hjlen : j < s.trts.length := List.mem_range.mp hjr
  have hmemj : s.trts.getD j "" ∈ s.trts := by
    rw [List.getD_eq_getElem _ _ hjlen]; exact List.getElem_mem _
  simp only [Function.comp]
  rw [which_eq_singleton s.trts _ hnd hmemj]
  rw [nodup_indexOf_getD hnd hjlen]
  rfl

theorem forest_output_of_not_mem (s : Session) (cr : Option String) (b : Bool)
    (hnotmem : cr.getD s.referenceGroup ∉ s.trts) :
    getForestData cr b (some s) = Json.obj
      [("reference", Json.str (cr.getD s.referenceGroup)),
       ("sm", Json.str s.sm),
       ("comparisons", Json.arr [])] := by
  rw [getForestData]
  rw [forestResolvedRef_eq]
  simp only [Option.getD_some]
  rw [which_eq_nil _ s.trts (fun a ha => by
    simp only [decide_eq_false_iff_not]
    rintro rfl
    exact hnotmem ha)]
  rw [negIndex, if_pos rfl]
  rfl


theorem convertRows_raised_iff (conv : List String → Except PyExc Json)
    (l : List (List String)) :
    raised (convertRows conv l) = true ↔ ∃ r ∈ l, raised (conv r) = true := by
  induction l with
  | nil => simp [convertRows, raised]
  | cons a t ih =>
      rw [convertRows]
      cases ha : conv a with
      | error e =>
          constructor
          · intro _
            exact ⟨a, List.mem_cons_self a t, by rw [ha]; rfl⟩
          · intro _
            rfl
      | ok j =>
          cases ht : convertRows conv t with
          | error e =>
              rw [ht] at ih
              constructor
              · intro _
                rcases ih.mp rfl with ⟨r, hrr, hf⟩
                exact ⟨r, List.mem_cons_of_mem a hrr, hf⟩
              · intro _
                rfl
          | ok js =>
              rw [ht] at ih
              constructor
              · intro h
                exact absurd h (by simp [raised])
              · rintro ⟨r, hrr, hf⟩
                rcases List.mem_cons.mp hrr with rfl | hmem
                · rw [ha] at hf
                  simp [raised] at hf
                · exact ih.mpr ⟨r, hmem, hf⟩

theorem fmtBranch_raised (fmt ns : String)
    (conv : List String → List String → Except PyExc Json)
    (header : List String) (rows : List (List String)) :
    raised (fmtBranch fmt conv ns header rows) = true ↔
      (missingFor fmt header = [] ∧ ∃ r ∈ rows, raised (conv header r) = true) := by
  by_cases hm : missingFor fmt header = []
  · rw [fmtBranch, if_neg (by simp [hm])]
    cases hconv : convertRows (conv header) rows with
    | error e =>
        constructor
        · intro _
          exact ⟨hm, (convertRows_raised_iff _ _).mp (by rw [hconv]; rfl)⟩
        · intro _
          rfl
    | ok ds =>
        constructor
        · intro h
          exact absurd h (by simp [raised])
        · rintro ⟨-, hex⟩
          have hh := (convertRows_raised_iff (conv header) rows).mpr hex
          rw [hconv] at hh
          simp [raised] at hh
  · rw [fmtBranch, if_pos (by simpa using hm)]
    simp [raised, hm]

theorem csvToJson_raised_iff (content fmt : String) :
    raised (csvToJson content fmt) = true ↔
      ((fmt = "pairwise" ∨ fmt = "arm_binary" ∨ fmt = "arm_continuous") ∧
       csvRows content ≠ [] ∧
       missingFor fmt (csvHeader content) = [] ∧
       ∃ row ∈ csvRows content,
         raised (rowConvertFor fmt (csvHeader content) row) = true) := by
  by_cases hr : csvRows content = []
  · simp [csvToJson, hr, raised]
  · by_cases h1 : fmt = "pairwise"
    · subst h1
      have hb : csvToJson content "pairwise" =
          fmtBranch "pairwise" pairwiseRow nextStepPairwise
            (csvHeader content) (csvRows content) := by
        simp [csvToJson, hr]
      rw [hb, fmtBranch_raised]
      constructor
      · rintro ⟨hm, r, hrr, hf⟩
        exact ⟨Or.inl rfl, hr, hm, ⟨r, hrr, by simpa [rowConvertFor] using hf⟩⟩
      · rintro ⟨-, -, hm, r, hrr, hf⟩
        exact ⟨hm, ⟨r, hrr, by simpa [rowConvertFor] using hf⟩⟩
    · by_cases h2 : fmt = "arm_binary"
      · subst h2
        have hb : csvToJson content "arm_binary" =
            fmtBranch "arm_binary" armBinaryRow nextStepArmBinary
              (csvHeader content) (csvRows content) := by
          simp [csvToJson, hr]
        rw [hb, fmtBranch_raised]
        constructor
        · rintro ⟨hm, r, hrr, hf⟩
          exact ⟨Or.inr (Or.inl rfl), hr, hm, ⟨r, hrr, by simpa [rowConvertFor] using hf⟩⟩
        · rintro ⟨-, -, hm, r, hrr, hf⟩
          exact ⟨hm, ⟨r, hrr, by simpa [rowConvertFor] using hf⟩⟩
      · by_cases h3 : fmt = "arm_continuous"
        · subst h3
          have hb : csvToJson content "arm_continuous" =
              fmtBranch "arm_continuous" armContinuousRow nextStepArmContinuous
                (csvHeader content) (csvRows content) := by
            simp [csvToJson, hr]
          rw [hb, fmtBranch_raised]
          constructor
          · rintro ⟨hm, r, hrr, hf⟩
            exact ⟨Or.inr (Or.inr rfl), hr, hm, ⟨r, hrr, by simpa [rowConvertFor] using hf⟩⟩
          · rintro ⟨-, -, hm, r, hrr, hf⟩
            exact ⟨hm, ⟨r, hrr, by simpa [rowConvertFor] using hf⟩⟩
        · have hb : csvToJson content fmt =
              .ok (Json.obj [("error", Json.str ("Unknown data_format: " ++ fmt)),
                   ("valid_formats", Json.arr [Json.str "pairwise", Json.str "arm_binary",
                                              Json.str "arm_continuous"])]) := by
            simp [csvToJson, hr, h1, h2, h3]
          rw [hb]
          simp [raised, h1, h2, h3]


/-! ### Claim theorems -/

/-- C1 (corrected): the facade post-processing follows exactly the
claimed branch structure, but with the literal messages of the source:
prefix `"R error: "` (not `"Engine error: "`) on a non-zero exit,
`"No output from R"` (not `"No output from engine"`) when the stripped
stdout is empty, and `"Failed to parse R output: "` on a decode
failure; the document parsed is the whitespace-stripped stdout, the raw
stdout is attached on a parse failure, a successful parse is returned
verbatim, and no branch raises. -/
theorem runRScript_branches (parse : String → Except String Json) (r : ProcResult) :
    (r.exitCode ≠ 0 →
      runRScript parse r = Json.obj [("error", Json.str ("R error: " ++ r.stderr))]) ∧
    (r.exitCode = 0 → pyStrip r.stdout = "" →
      runRScript parse r = Json.obj [("error", Json.str "No output from R")]) ∧
    (r.exitCode = 0 → pyStrip r.stdout ≠ "" →
      (∀ j, parse (pyStrip r.stdout) = .ok j → runRScript parse r = j) ∧
      (∀ e, parse (pyStrip r.stdout) = .error e →
        runRScript parse r =
          Json.obj [("error", Json.str ("Failed to parse R output: " ++ e)),
                    ("raw_output", Json.str r.stdout)])) := by
  refine ⟨?_, ?_, ?_⟩
  · intro h
    simp [runRScript, h]
  · intro h h2
    simp [runRScript, h, h2]
  · intro h h2
    constructor
    · intro j hj
      simp [runRScript, h, h2, hj]
    · intro e he
      simp [runRScript, h, h2, he]

/-- Witness for C1: a failing process with stderr `boom` yields the
`R error: boom` document. -/
theorem runRScript_branches_witness :
    runRScript parseStub procErr =
      Json.obj [("error", Json.str ("R error: " ++ procErr.stderr))] :=
  (runRScript_branches parseStub procErr).1 (by decide)

/-- Counterexample for C1 as frozen: the non-zero-exit message carries
the prefix `R error: `, not the claimed `Engine error: `. -/
theorem runRScript_prefix_counterexample :
    (runRScript parseStub procErr).field "error" = some (Json.str "R error: boom") ∧
    "R error: boom" ≠ "Engine error: boom" :=
  ⟨rfl, by decide⟩

/-- C2 (confirmed): every read operation issued while the session
artifact is absent returns exactly the no-state error document — the
guarded preamble prints it and quits before the operation body — and,
being a total function of the state, cannot crash. -/
theorem read_before_run_returns_no_state_error :
    getNetworkGraph none = noStateError ∧
    (∀ b : Bool, getLeagueTable b none = noStateError) ∧
    (∀ b : Bool, getRanking b none = noStateError) ∧
    (∀ (ref : Option String) (b : Bool), getForestData ref b none = noStateError) :=
  ⟨rfl, fun _ => rfl, fun _ => rfl, fun _ _ => rfl⟩

/-- C10 (confirmed): whenever the stripped CSV has no data records
(empty input, or a header line only), `csv_to_json` returns the
`No data found in CSV` document, whatever the `data_format` — the check
precedes the format dispatch and the column validation. -/
theorem csv_no_data (content fmt : String) (h : csvRows content = []) :
    csvToJson content fmt = .ok noDataError := by
  simp [csvToJson, h]

/-- Witness for C10: a header-only CSV together with an unrecognized
format still yields the no-data error. -/
theorem csv_no_data_witness :
    csvToJson "study,treat1,treat2,TE,seTE" "bogus" = .ok noDataError :=
  csv_no_data "study,treat1,treat2,TE,seTE" "bogus" (by rfl)

/-- C9 (confirmed): a header lacking required columns of a recognized
format yields the structured missing-columns document — naming exactly
the required columns absent from the header, with the found and
required column lists — and no row conversion is attempted (the result
is this document whatever the data rows hold). -/
theorem csv_missing_columns (content fmt : String)
    (hf : fmt = "pairwise" ∨ fmt = "arm_binary" ∨ fmt = "arm_continuous")
    (hr : csvRows content ≠ [])
    (hm : missingFor fmt (csvHeader content) ≠ []) :
    csvToJson content fmt = .ok (missingErrorFor fmt (csvHeader content)) ∧
    ∀ c, c ∈ missingFor fmt (csvHeader content) ↔
      (c ∈ requiredFor fmt ∧ c ∉ csvHeader content) := by
  constructor
  · rcases hf with h | h | h <;> subst h <;>
      simp [csvToJson, hr, fmtBranch, hm]
  · intro c
    simp [missingFor, List.mem_filter]

/-- Witness for C9: the pairwise format without a `seTE` column returns
the structured error naming exactly `seTE`, although the data row's
`TE` value is unconvertible. -/
theorem csv_missing_columns_witness :
    csvToJson noSeTECsv "pairwise" =
      .ok (missingErrorFor "pairwise" (csvHeader noSeTECsv)) ∧
    missingFor "pairwise" (csvHeader noSeTECsv) = ["seTE"] :=
  ⟨(csv_missing_columns noSeTECsv "pairwise" (Or.inl rfl) (by decide) (by decide)).1,
   by rfl⟩


/-- C5 (corrected): `get_network_graph` emits one node per treatment
(1-based `id`, name as `label`), and one edge per distinct *ordered*
`(from, to)` pair of the stored comparison rows — `aggregate` groups by
the ordered combination, so the two orientations of one unordered pair
produce two separate edges — each counting the comparison rows of that
ordered pair. -/
theorem network_graph_output (s : Session) :
    (getNetworkGraph (some s)).field "nodes" = some (Json.arr
      ((List.range s.trts.length).map (fun i =>
        Json.obj [("id", Json.num ((i + 1 : Nat) : ℚ)),
                  ("label", Json.str (s.trts.getD i ""))]))) ∧
    (getNetworkGraph (some s)).field "edges" = some (Json.arr
      ((s.treat1.zip s.treat2).dedup.map (fun p =>
        Json.obj [("from", Json.str p.1), ("to", Json.str p.2),
                  ("n_studies", Json.num ((((s.treat1.zip s.treat2).filter
                      (fun q => decide (q = p))).length : ℚ)))]))) ∧
    (s.treat1.zip s.treat2).dedup.Nodup ∧
    ∀ p : String × String,
      (p ∈ (s.treat1.zip s.treat2).dedup ↔ p ∈ s.treat1.zip s.treat2) :=
  ⟨rfl, rfl, List.nodup_dedup _, fun _ => List.mem_dedup⟩

/-- Counterexample for C5 as frozen: a session whose data holds `B→C`
and `C→B` — one unordered pair — produces two edges, not one. -/
theorem network_graph_orientation_counterexample :
    (getNetworkGraph (some sessTwoWay)).field "edges" = some (Json.arr
      [Json.obj [("from", Json.str "B"), ("to", Json.str "C"),
                 ("n_studies", Json.num ((1 : Nat) : ℚ))],
       Json.obj [("from", Json.str "C"), ("to", Json.str "B"),
                 ("n_studies", Json.num ((1 : Nat) : ℚ))]]) ∧
    unorderedKeys (sessTwoWay.treat1.zip sessTwoWay.treat2) = [("B", "C")] :=
  ⟨rfl, rfl⟩

/-- C7 (confirmed): the pair list of each requested model enumerates
exactly the strictly upper-triangular pairs in row-major order, the
heterogeneity block is present iff random effects were requested, and
each estimate list is present iff its model was requested.  (`common`
and `random` of the session echo the request flags `comb_fixed` and
`comb_random`.) -/
theorem run_netmeta_pairs_and_blocks (s : Session) (nc : Nat)
    (h2 : 2 ≤ s.trts.length) :
    upperPairs s.trts.length = strictUpperRowMajor s.trts.length ∧
    ("heterogeneity" ∈ (runNetmetaOutput s nc).keys ↔ s.random = true) ∧
    ("fixed_effects" ∈ (runNetmetaOutput s nc).keys ↔ s.common = true) ∧
    ("random_effects" ∈ (runNetmetaOutput s nc).keys ↔ s.random = true) ∧
    (s.common = true → (runNetmetaOutput s nc).field "fixed_effects" =
      some (Json.arr ((upperPairs s.trts.length).map
        (comparisonEntry s.trts s.TEcommon s.lowerCommon s.upperCommon)))) ∧
    (s.random = true → (runNetmetaOutput s nc).field "random_effects" =
      some (Json.arr ((upperPairs s.trts.length).map
        (comparisonEntry s.trts s.TErandom s.lowerRandom s.upperRandom)))) := by
  refine ⟨upperPairs_eq_strictUpper _, ?_, ?_, ?_, ?_, ?_⟩ <;>
    cases hc : s.common <;> cases hrnd : s.random <;>
      simp [runNetmetaOutput, Json.keys, Json.field, hc, hrnd]

/-- Witness for C7 at a three-treatment session. -/
theorem run_netmeta_pairs_and_blocks_witness :
    upperPairs sessThree.trts.length = strictUpperRowMajor sessThree.trts.length ∧
    "heterogeneity" ∈ (runNetmetaOutput sessThree 2).keys ∧
    upperPairs 3 = [(0, 1), (0, 2), (1, 2)] := by
  have h := run_netmeta_pairs_and_blocks sessThree 2 (by decide)
  exact ⟨h.1, h.2.1.mpr rfl, by decide⟩


/-- C6 (corrected): when the selected P-scores are pairwise distinct,
the ranks are (as a multiset) exactly `1..n`, the maximal P-score
receives rank `1`, and the three output sequences are re-ordered by the
single permutation `order(ranks)`, which sorts the ranks ascending.
(With tied P-scores, R's `rank` default assigns equal *average* —
generally fractional — ranks, so the ranks are then not a permutation
of `1..n`; see the counterexample.) -/
theorem ranking_props (s : Session) (b : Bool)
    (hlen : (scoresFor b s).length = s.trts.length)
    (hnd : (scoresFor b s).Nodup) :
    (rankNegAvg (scoresFor b s)).Perm
        ((List.range s.trts.length).map (fun k : ℕ => (k : ℚ) + 1)) ∧
    (∀ i < s.trts.length,
        (∀ j < s.trts.length, (scoresFor b s).getD j 0 ≤ (scoresFor b s).getD i 0) →
        (rankNegAvg (scoresFor b s)).getD i 0 = 1) ∧
    (argsortQ (rankNegAvg (scoresFor b s))).Perm (List.range s.trts.length) ∧
    ((argsortQ (rankNegAvg (scoresFor b s))).map
        (fun i => (rankNegAvg (scoresFor b s)).getD i 0)).Sorted (· ≤ ·) ∧
    getRanking b (some s) = Json.obj
      [("treatments", Json.arr ((argsortQ (rankNegAvg (scoresFor b s))).map
          (fun i => Json.str (s.trts.getD i "")))),
       ("p_scores", Json.arr ((argsortQ (rankNegAvg (scoresFor b s))).map
          (fun i => Json.num ((scoresFor b s).getD i 0)))),
       ("ranks", Json.arr ((argsortQ (rankNegAvg (scoresFor b s))).map
          (fun i => Json.num ((rankNegAvg (scoresFor b s)).getD i 0))))] := by
  have hrl : (rankNegAvg (scoresFor b s)).length = s.trts.length := by
    simp [rankNegAvg, hlen]
  refine ⟨?_, ?_, ?_, argsortQ_sorted _, rfl⟩
  · have h := rankNegAvg_perm (scoresFor b s) hnd
    rwa [hlen] at h
  · intro i hi hmax
    apply rankNegAvg_max_eq_one (scoresFor b s) hnd i (by rw [hlen]; exact hi)
    intro j hj
    exact hmax j (by rw [← hlen]; exact hj)
  · have h := argsortQ_perm (rankNegAvg (scoresFor b s))
    rwa [hrl] at h

/-- Witness for C6 at distinct P-scores `[1, 2]`. -/
theorem ranking_props_witness :
    (rankNegAvg (scoresFor true sessRef)).Perm
      ((List.range sessRef.trts.length).map (fun k : ℕ => (k : ℚ) + 1)) :=
  (ranking_props sessRef true (by rfl) (by norm_num [scoresFor, sessRef, mkSession])).1


theorem rankNegAvg_tied_pair :
    rankNegAvg [(1 : ℚ), 1] = [3 / 2, 3 / 2] := by
  have hgt : countGt [(1 : ℚ), 1] 1 = 0 := by
    simp [countGt, List.filter_cons, List.filter_nil]
  have heq : countEq [(1 : ℚ), 1] 1 = 2 := by
    simp [countEq, List.filter_cons, List.filter_nil]
  simp [rankNegAvg, hgt, heq]
  norm_num

theorem ranking_ties_counterexample :
    ranksOf (getRanking true (some sessTied)) = [3 / 2, 3 / 2] ∧
    ¬ ([(3 : ℚ) / 2, 3 / 2].Perm [1, 2]) := by
  constructor
  · have hsc : scoresFor true sessTied = [(1 : ℚ), 1] := rfl
    have hranks := rankNegAvg_tied_pair
    have hord : argsortQ (rankNegAvg [(1 : ℚ), 1]) = [0, 1] := by
      rw [hranks]
      simp [argsortQ, List.insertionSort, List.orderedInsert]
    show ranksOf (getRanking true (some sessTied)) = _
    rw [getRanking]
    rw [hsc, hord, hranks]
    simp [ranksOf, Json.field, Json.elems]
  · intro h
    have h1 : (1 : ℚ) ∈ [(3 : ℚ) / 2, 3 / 2] := h.mem_iff.mpr (by norm_num)
    simp only [List.mem_cons, List.not_mem_nil, or_false] at h1
    rcases h1 with h1 | h1 <;> norm_num at h1


/-- C4 (corrected): the forest-data reference resolves to the
caller-supplied reference, else the session's stored reference string —
the `trts[1]` fallback is dead code, since the stored reference is a
string (the empty string when the analysis ran without a reference),
never the engine's null.  When the resolved reference is one of the
treatments, the output lists, for every other treatment, its effect and
confidence bounds against the reference from the matrices selected by
the `random` flag; when it is not (in particular the empty string), the
comparison list is empty. -/
theorem forest_reference_resolution (s : Session) (cr : Option String) (b : Bool)
    (hnd : s.trts.Nodup) :
    forestResolvedRef cr s = some (cr.getD s.referenceGroup) ∧
    (cr.getD s.referenceGroup ∈ s.trts →
      getForestData cr b (some s) = Json.obj
        [("reference", Json.str (cr.getD s.referenceGroup)),
         ("sm", Json.str s.sm),
         ("comparisons", Json.arr
           (((List.range s.trts.length).filter
               (fun j => decide (j ≠ s.trts.indexOf (cr.getD s.referenceGroup)))).map
             (forestEntry s b (s.trts.indexOf (cr.getD s.referenceGroup)))))]) ∧
    (cr.getD s.referenceGroup ∉ s.trts →
      getForestData cr b (some s) = Json.obj
        [("reference", Json.str (cr.getD s.referenceGroup)),
         ("sm", Json.str s.sm),
         ("comparisons", Json.arr [])]) :=
  ⟨forestResolvedRef_eq cr s,
   fun hmem => forest_output_of_mem s cr b hnd hmem,
   fun hnm => forest_output_of_not_mem s cr b hnm⟩

/-- Witness for C4: with stored reference `A` over treatments
`[A, B]` and no caller reference, the output compares `B` against `A`. -/
theorem forest_reference_resolution_witness :
    getForestData none true (some sessRef) = Json.obj
      [("reference", Json.str "A"), ("sm", Json.str "OR"),
       ("comparisons", Json.arr
         (((List.range 2).filter (fun j => decide (j ≠ 0))).map
           (forestEntry sessRef true 0)))] := by
  have h := (forest_reference_resolution sessRef none true (by decide)).2.1 (by decide)
  exact h

/-- Counterexample for C4 as frozen: a session run without a reference
stores the empty string, so with no caller reference the resolved
reference is `""` — not the first treatment `A` — and the comparison
list is empty rather than listing every other treatment. -/
theorem forest_first_treatment_fallback_counterexample :
    forestResolvedRef none sessNoRef = some "" ∧
    sessNoRef.trts = ["A", "B"] ∧
    ("" ∈ sessNoRef.trts) = False ∧
    getForestData none true (some sessNoRef) = Json.obj
      [("reference", Json.str ""), ("sm", Json.str "OR"),
       ("comparisons", Json.arr [])] := by
  refine ⟨rfl, rfl, ?_, ?_⟩
  · simp [sessNoRef, mkSession]
  · exact forest_output_of_not_mem sessNoRef none true (by decide)


/-- C3 (corrected): under sequential execution, the artifact changes
only through `run_netmeta` — each read operation leaves the state
untouched, a successful fit overwrites it, a failed fit leaves it as it
was — and the treatments of a league-table or ranking response are
exactly the current session's treatment list.  A forest-data response
mentions exactly the session's treatments whenever its resolved
reference is one of them; when the resolved reference matches no
treatment (notably the empty string left by a reference-free analysis),
the response names no treatment at all — still never a mix of old and
new state. -/
theorem session_state_protocol :
    (∀ (e : Engine) (st : Option Session) (b : Bool), (step e st (.leagueOp b)).2 = st) ∧
    (∀ (e : Engine) (st : Option Session), (step e st .graphOp).2 = st) ∧
    (∀ (e : Engine) (st : Option Session) (b : Bool), (step e st (.rankOp b)).2 = st) ∧
    (∀ (e : Engine) (st : Option Session) (rf : Option String) (b : Bool),
        (step e st (.forestOp rf b)).2 = st) ∧
    (∀ (e : Engine) (st : Option Session) (d : List PairRow) (sm : String)
        (rf : Option String) (cf cr : Bool) (s : Session),
        e d sm rf cf cr = .ok s → (step e st (.runOp d sm rf cf cr)).2 = some s) ∧
    (∀ (e : Engine) (st : Option Session) (d : List PairRow) (sm : String)
        (rf : Option String) (cf cr : Bool) (msg : String),
        e d sm rf cf cr = .error msg → (step e st (.runOp d sm rf cf cr)).2 = st) ∧
    (∀ (s : Session) (b : Bool),
        (getLeagueTable b (some s)).field "treatments" =
          some (Json.arr (s.trts.map Json.str))) ∧
    (∀ (s : Session) (b : Bool), (scoresFor b s).length = s.trts.length →
        ∃ l : List String, (getRanking b (some s)).field "treatments" =
              some (Json.arr (l.map Json.str)) ∧ l.Perm s.trts) ∧
    (∀ (s : Session) (cr : Option String) (b : Bool), s.trts.Nodup →
        cr.getD s.referenceGroup ∈ s.trts →
        (forestMentioned (getForestData cr b (some s))).Perm s.trts) := by
  refine ⟨fun _ _ _ => rfl, fun _ _ => rfl, fun _ _ _ => rfl, fun _ _ _ _ => rfl,
    ?_, ?_, fun s b => rfl, ?_, ?_⟩
  · intro e st d sm rf cf cr s h
    simp [step, h]
  · intro e st d sm rf cf cr msg h
    simp [step, h]
  · intro s b hlen
    refine ⟨(argsortQ (rankNegAvg (scoresFor b s))).map (fun i => s.trts.getD i ""), ?_, ?_⟩
    · rw [List.map_map]
      rfl
    · have hrl : (rankNegAvg (scoresFor b s)).length = s.trts.length := by
        simp [rankNegAvg, hlen]
      have hp := argsortQ_perm (rankNegAvg (scoresFor b s))
      rw [hrl] at hp
      have hp2 := hp.map (fun i => s.trts.getD i "")
      rwa [map_getD_range s.trts ""] at hp2
  · intro s cr b hnd hmem
    rw [forest_output_of_mem s cr b hnd hmem]
    have hstep : forestMentioned (Json.obj
        [("reference", Json.str (cr.getD s.referenceGroup)),
         ("sm", Json.str s.sm),
         ("comparisons", Json.arr
           (((List.range s.trts.length).filter
               (fun j => decide (j ≠ s.trts.indexOf (cr.getD s.referenceGroup)))).map
             (forestEntry s b (s.trts.indexOf (cr.getD s.referenceGroup)))))]) =
        [cr.getD s.referenceGroup] ++
          List.filterMap
            ((fun e => match Json.field e "treatment" with
               | some (Json.str t) => some t
               | _ => none) ∘
             forestEntry s b (s.trts.indexOf (cr.getD s.referenceGroup)))
            ((List.range s.trts.length).filter
              (fun j => decide (j ≠ s.trts.indexOf (cr.getD s.referenceGroup)))) := by
      show [cr.getD s.referenceGroup] ++
          List.filterMap
            (fun e => match Json.field e "treatment" with
               | some (Json.str t) => some t
               | _ => none)
            (((List.range s.trts.length).filter
                (fun j => decide (j ≠ s.trts.indexOf (cr.getD s.referenceGroup)))).map
              (forestEntry s b (s.trts.indexOf (cr.getD s.referenceGroup)))) = _
      rw [List.filterMap_map]
    rw [hstep]
    rw [show ((fun e => match Json.field e "treatment" with
           | some (Json.str t) => some t
           | _ => none) ∘
         forestEntry s b (s.trts.indexOf (cr.getD s.referenceGroup))) =
        some ∘ (fun j => s.trts.getD j "") from rfl]
    rw [List.filterMap_eq_map, List.singleton_append]
    have hidx : s.trts.indexOf (cr.getD s.referenceGroup) < s.trts.length :=
      List.indexOf_lt_length.mpr hmem
    have hperm := perm_cons_eraseIdx s.trts (s.trts.indexOf (cr.getD s.referenceGroup)) hidx ""
    rw [eraseIdx_eq_map_filter_range s.trts ""] at hperm
    have hget : s.trts.getD (s.trts.indexOf (cr.getD s.referenceGroup)) "" =
        cr.getD s.referenceGroup := by
      rw [List.getD_eq_getElem _ _ hidx]
      exact List.getElem_indexOf hidx
    rw [hget] at hperm
    exact hperm.symm

/-- Witness for C3: a forest response over a session with stored
reference `A` mentions exactly the session's treatments. -/
theorem session_state_protocol_witness :
    (forestMentioned (getForestData none true (some sessRef))).Perm sessRef.trts :=
  session_state_protocol.2.2.2.2.2.2.2.2 sessRef none true (by decide) (by decide)

/-- Counterexample for C3 as frozen: after a reference-free analysis,
`get_forest_data` with no caller reference resolves the reference to
the empty string and mentions no treatment — not "exactly the treatment
set" of the session. -/
theorem forest_empty_reference_counterexample :
    forestMentioned (getForestData none true (some sessNoRef)) = [""] ∧
    ¬ (forestMentioned (getForestData none true (some sessNoRef))).Perm sessNoRef.trts := by
  constructor
  · rfl
  · intro h
    exact absurd h.length_eq (by decide)


/-- C8 (corrected): the facade returns every engine-side failure as a
structured document — on every branch `_run_r_script` returns either a
JSON object of its own making (engine error, empty output, parse
failure) or the engine's parsed document verbatim (which carries the
script-level traps for missing state and computation errors); the CSV
layer returns structured documents for the no-data, unknown-format and
missing-column cases, but a malformed numeric field is the one failure
that escapes as a raised exception: `csv_to_json` raises if and only if
the format is recognized, rows exist, no required column is missing,
and some row has an unconvertible numeric field. -/
theorem error_propagation_policy :
    (∀ (parse : String → Except String Json) (r : ProcResult),
      (∃ fs, runRScript parse r = Json.obj fs) ∨
      (∃ j, parse (pyStrip r.stdout) = .ok j ∧ runRScript parse r = j)) ∧
    (∀ content fmt : String,
      raised (csvToJson content fmt) = true ↔
        ((fmt = "pairwise" ∨ fmt = "arm_binary" ∨ fmt = "arm_continuous") ∧
         csvRows content ≠ [] ∧
         missingFor fmt (csvHeader content) = [] ∧
         ∃ row ∈ csvRows content,
           raised (rowConvertFor fmt (csvHeader content) row) = true)) := by
  constructor
  · intro parse r
    by_cases h : r.exitCode ≠ 0
    · exact Or.inl ⟨[("error", Json.str ("R error: " ++ r.stderr))],
        by simp [runRScript, h]⟩
    · by_cases h2 : pyStrip r.stdout = ""
      · exact Or.inl ⟨[("error", Json.str "No output from R")],
          by simp [runRScript, h, h2]⟩
      · cases hp : parse (pyStrip r.stdout) with
        | ok j => exact Or.inr ⟨j, rfl, by simp [runRScript, h, h2, hp]⟩
        | error e =>
            exact Or.inl ⟨[("error", Json.str ("Failed to parse R output: " ++ e)),
                ("raw_output", Json.str r.stdout)],
              by simp [runRScript, h, h2, hp]⟩
  · exact csvToJson_raised_iff

/-- Counterexample for C8 as frozen: a non-numeric `TE` value makes
`csv_to_json` raise a `ValueError` naming the offending value — no
structured validation document naming the field is returned. -/
theorem csv_numeric_raises_counterexample :
    raised (csvToJson badTECsv "pairwise") = true ∧
    raisedMsg (csvToJson badTECsv "pairwise") =
      some "could not convert string to float: \x27abc\x27" :=
  ⟨rfl, rfl⟩

end Netmeta
